import Mathlib

/-!
# Verification of the posedetect frame/pose synchronization and export pipeline

Shallow embedding of the core data model and algorithms of the `posedetect`
repository, together with theorems settling the specification claims.

Numeric values that are Python `float`s in the source (`x`, `y`, `confidence`,
`timestamp`, `fps`) are modelled as rationals `ℚ`; Python `int`s are `ℤ` or
`ℕ` as appropriate. `Optional[T]` fields are `Option`. Python code that can
raise is modelled with `Except PyError`.
-/

namespace PoseDetect

/-- Python exception kinds raised by the embedded code paths. -/
inductive PyError where
  | typeError
  | valueError
  | ioError
  | runtimeError
  | fileNotFound
deriving DecidableEq, Repr

/-! ## Data model (src/posedetect/models/pose.py) -/

/-- `KeyPoint` dataclass: a single keypoint with position and confidence. -/
structure KeyPoint where
  x : ℚ
  y : ℚ
  confidence : ℚ
deriving DecidableEq, Repr

/-- `Joint` dataclass: a named joint with its keypoint. -/
structure Joint where
  name : String
  keypoint : KeyPoint
  joint_id : ℤ
deriving DecidableEq, Repr

/-- `Pose` dataclass: one detected person's joints in one frame.
`frame_number`, `timestamp` and `confidence` default to `None` in the source,
hence are `Option` here. -/
structure Pose where
  joints : List Joint
  person_id : ℤ := 0
  frame_number : Option ℤ := none
  timestamp : Option ℚ := none
  confidence : Option ℚ := none
deriving DecidableEq, Repr

/-! ### Dict forms (`to_dict` / `from_dict`)

A Python dict value is modelled by a structure whose fields are the keys
written by `to_dict`.  Keys read back with `data.get(key, default)` may be
absent, so the corresponding structure field is an `Option` where the source
allows absence (`None`-valued keys and absent keys are indistinguishable to
`dict.get`, so one `Option` layer models both). -/

/-- Dict produced by `KeyPoint.to_dict` (keys `x`, `y`, `confidence`,
all required by `KeyPoint.from_dict`). -/
structure KeyPointDict where
  x : ℚ
  y : ℚ
  confidence : ℚ
deriving DecidableEq, Repr

/-- `KeyPoint.to_dict`. -/
def KeyPoint.to_dict (k : KeyPoint) : KeyPointDict :=
  { x := k.x, y := k.y, confidence := k.confidence }

/-- `KeyPoint.from_dict` (all keys accessed with `data[...]`, required). -/
def KeyPoint.from_dict (d : KeyPointDict) : KeyPoint :=
  { x := d.x, y := d.y, confidence := d.confidence }

/-- Dict produced by `Joint.to_dict` (keys `name`, `joint_id`, `keypoint`). -/
structure JointDict where
  name : String
  joint_id : ℤ
  keypoint : KeyPointDict
deriving DecidableEq, Repr

/-- `Joint.to_dict`. -/
def Joint.to_dict (j : Joint) : JointDict :=
  { name := j.name, joint_id := j.joint_id, keypoint := j.keypoint.to_dict }

/-- `Joint.from_dict` (all keys accessed with `data[...]`, required). -/
def Joint.from_dict (d : JointDict) : Joint :=
  { name := d.name, joint_id := d.joint_id, keypoint := KeyPoint.from_dict d.keypoint }

/-- Dict produced by `Pose.to_dict`.  `Pose.from_dict` reads `person_id` with
`data.get('person_id', 0)` so that key may be absent (`none`); `frame_number`,
`timestamp`, `confidence` are read with `data.get(...)` whose default `None`
coincides with the field's `Option` layer; `joints` is required. -/
structure PoseDict where
  person_id : Option ℤ
  frame_number : Option ℤ
  timestamp : Option ℚ
  confidence : Option ℚ
  joints : List JointDict
deriving DecidableEq, Repr

/-- `Pose.to_dict`. -/
def Pose.to_dict (p : Pose) : PoseDict :=
  { person_id := some p.person_id
    frame_number := p.frame_number
    timestamp := p.timestamp
    confidence := p.confidence
    joints := p.joints.map Joint.to_dict }

/-- `Pose.from_dict`. -/
def Pose.from_dict (d : PoseDict) : Pose :=
  { joints := d.joints.map Joint.from_dict
    person_id := d.person_id.getD 0
    frame_number := d.frame_number
    timestamp := d.timestamp
    confidence := d.confidence }

/-! ## Grouping poses by frame

Both `OverlayFrameExtractor._group_poses_by_frame`
(src/posedetect/video/frame_extraction.py) and
`JSONExporter._group_poses_by_frame` (src/posedetect/exporters/json_exporter.py)
contain the identical loop
```
for pose in poses:
    frame_number = getattr(pose, 'frame_number', 0)
    if frame_number not in poses_by_frame: poses_by_frame[frame_number] = []
    poses_by_frame[frame_number].append(pose)
```
`Pose` is a dataclass, so the attribute `frame_number` always exists and
`getattr` returns its value — possibly `None` — and the `getattr` default `0`
is dead code.  The Python dict is modelled as an insertion-ordered association
list keyed by `Option ℤ` (`none` is the `None` key). -/

/-- One step of the grouping loop: append `p` to the bucket of key `k`,
creating the bucket at the end if the key is new (Python dict insertion
order). -/
def groupInsert (m : List (Option ℤ × List Pose)) (k : Option ℤ) (p : Pose) :
    List (Option ℤ × List Pose) :=
  match m with
  | [] => [(k, [p])]
  | (k', ps) :: rest =>
      if k' = k then (k', ps ++ [p]) :: rest else (k', ps) :: groupInsert rest k p

/-- `_group_poses_by_frame`: the full grouping loop. -/
def groupPosesByFrame (poses : List Pose) : List (Option ℤ × List Pose) :=
  poses.foldl (fun m p => groupInsert m p.frame_number p) []

/-- Dict lookup `poses_by_frame[k]` with default `[]`
(also models `poses_by_frame.get(k, [])` and the membership test
`k in poses_by_frame`, whose result is `bucketAt m k ≠ []` for buckets built
by `groupPosesByFrame`, since buckets are never empty). -/
def bucketAt (m : List (Option ℤ × List Pose)) (k : Option ℤ) : List Pose :=
  match m with
  | [] => []
  | (k', ps) :: rest => if k' = k then ps else bucketAt rest k

/-! Helper lemmas about grouping. -/

theorem bucketAt_groupInsert (m : List (Option ℤ × List Pose)) (k k' : Option ℤ)
    (p : Pose) :
    bucketAt (groupInsert m k p) k' =
      if k = k' then bucketAt m k' ++ [p] else bucketAt m k' := by
  induction m with
  | nil =>
      by_cases h : k = k' <;> simp [groupInsert, bucketAt, h]
  | cons hd tl ih =>
      obtain ⟨k₀, ps⟩ := hd
      by_cases h0 : k₀ = k
      · by_cases h : k = k' <;> simp [groupInsert, bucketAt, h0, h, ih]
      · simp only [groupInsert, if_neg h0, bucketAt]
        rw [ih]
        by_cases h1 : k₀ = k' <;> by_cases h : k = k'
        · exact absurd (h1.trans h.symm) h0
        · simp [h1, h]
        · simp [h1, h]
        · simp [h1, h]

theorem bucketAt_foldl (poses : List Pose) (m : List (Option ℤ × List Pose))
    (k : Option ℤ) :
    bucketAt (poses.foldl (fun m p => groupInsert m p.frame_number p) m) k =
      bucketAt m k ++ poses.filter (fun p => p.frame_number = k) := by
  induction poses generalizing m with
  | nil => simp
  | cons p rest ih =>
      simp only [List.foldl_cons, ih, bucketAt_groupInsert]
      by_cases h : p.frame_number = k
      · simp [List.filter_cons, h]
      · simp [List.filter_cons, h]

/-- Grouping invariant: the bucket at key `k` is exactly the subsequence of
input poses whose `frame_number` equals `k`, in input order. -/
theorem bucketAt_group_eq_filter (poses : List Pose) (k : Option ℤ) :
    bucketAt (groupPosesByFrame poses) k =
      poses.filter (fun p => p.frame_number = k) := by
  simpa [groupPosesByFrame, bucketAt] using bucketAt_foldl poses [] k

/-- Keys of the grouping map. -/
def groupKeys (m : List (Option ℤ × List Pose)) : List (Option ℤ) :=
  m.map Prod.fst

theorem groupKeys_groupInsert (m : List (Option ℤ × List Pose)) (k : Option ℤ)
    (p : Pose) :
    groupKeys (groupInsert m k p) =
      if k ∈ groupKeys m then groupKeys m else groupKeys m ++ [k] := by
  induction m with
  | nil => simp [groupInsert, groupKeys]
  | cons hd tl ih =>
      obtain ⟨k₀, ps⟩ := hd
      by_cases h0 : k₀ = k
      · simp [groupInsert, groupKeys, h0]
      · have hne : ¬ k = k₀ := fun he => h0 he.symm
        simp only [groupInsert, if_neg h0, groupKeys, List.map_cons]
        simp only [groupKeys] at ih
        rw [ih]
        by_cases hmem : k ∈ tl.map Prod.fst <;>
          simp [List.mem_cons, hmem, hne]

theorem nodup_groupKeys_foldl (poses : List Pose)
    (m : List (Option ℤ × List Pose)) (hm : (groupKeys m).Nodup) :
    (groupKeys (poses.foldl (fun m p => groupInsert m p.frame_number p) m)).Nodup := by
  induction poses generalizing m with
  | nil => simpa using hm
  | cons p rest ih =>
      simp only [List.foldl_cons]
      apply ih
      rw [groupKeys_groupInsert]
      by_cases hmem : p.frame_number ∈ groupKeys m
      · simpa [hmem] using hm
      · simp only [if_neg hmem]
        simpa [List.nodup_append] using ⟨hm, hmem⟩

/-- The grouping map never has duplicate keys. -/
theorem groupPosesByFrame_keys_nodup (poses : List Pose) :
    (groupKeys (groupPosesByFrame poses)).Nodup :=
  nodup_groupKeys_foldl poses [] (by simp [groupKeys])

/-! ## Frame selection
(src/posedetect/video/frame_extraction.py, `RawFrameExtractor.extract_frames`
and `OverlayFrameExtractor.extract_frames`;
src/posedetect/video/overlay_generator.py, `VideoOverlayGenerator._process_video`)

The decode loop is modelled on frame indices: the video decodes exactly
`remaining` more frames (`cap.read()` fails afterwards), `i` is the running
`frame_count`.  The loop body of both extractors is
```
if frame_count < start_frame: continue
if frame_count >= end_frame: break
if frame_count % config.frame_skip != 0: continue
<process and write frame frame_count>
```
and the value of interest is the list of processed (retained) frame indices. -/

/-- The extractor while-loop (duplicated verbatim in `RawFrameExtractor` and
`OverlayFrameExtractor`). -/
def selectLoop (startF endF skip : ℕ) : ℕ → ℕ → List ℕ
  | 0, _ => []
  | remaining + 1, i =>
      if i < startF then selectLoop startF endF skip remaining (i + 1)
      else if endF ≤ i then []
      else if i % skip ≠ 0 then selectLoop startF endF skip remaining (i + 1)
      else i :: selectLoop startF endF skip remaining (i + 1)

/-- `start_frame = 0 if config.frame_range is None else config.frame_range[0]`. -/
def startFrameOf (fr : Option (ℕ × ℕ)) : ℕ :=
  match fr with
  | none => 0
  | some r => r.1

/-- `end_frame = total_frames if config.frame_range is None else
min(config.frame_range[1], total_frames)`. -/
def endFrameOf (totalFrames : ℕ) (fr : Option (ℕ × ℕ)) : ℕ :=
  match fr with
  | none => totalFrames
  | some r => min r.2 totalFrames

/-- Frame indices retained by `RawFrameExtractor.extract_frames` on a video
with `totalFrames` decodable frames. -/
def rawExtractIndices (totalFrames : ℕ) (fr : Option (ℕ × ℕ)) (skip : ℕ) : List ℕ :=
  selectLoop (startFrameOf fr) (endFrameOf totalFrames fr) skip totalFrames 0

/-- Frame indices retained by `OverlayFrameExtractor.extract_frames`
(its loop and range computation are the same lines, duplicated in the
source). -/
def overlayExtractIndices (totalFrames : ℕ) (fr : Option (ℕ × ℕ)) (skip : ℕ) : List ℕ :=
  selectLoop (startFrameOf fr) (endFrameOf totalFrames fr) skip totalFrames 0

/-- The composer loop of `VideoOverlayGenerator._process_video`: no frame
window at all, only the skip test `frame_count % frame_skip != 0`. -/
def composerLoop (skip : ℕ) : ℕ → ℕ → List ℕ
  | 0, _ => []
  | remaining + 1, i =>
      if i % skip ≠ 0 then composerLoop skip remaining (i + 1)
      else i :: composerLoop skip remaining (i + 1)

/-- Frame indices written into the output video by
`VideoOverlayGenerator._process_video`. -/
def composerWrittenIndices (totalFrames skip : ℕ) : List ℕ :=
  composerLoop skip totalFrames 0

/-- The progress denominator `end_frame - start_frame` used by both
extractors' progress callbacks. -/
def progressDenom (totalFrames : ℕ) (fr : Option (ℕ × ℕ)) : ℤ :=
  (endFrameOf totalFrames fr : ℤ) - (startFrameOf fr : ℤ)

/-- The retention predicate actually implemented by the extractor loops. -/
def selectedPred (startF endF skip : ℕ) (j : ℕ) : Bool :=
  decide (startF ≤ j) && decide (j < endF) && decide (j % skip = 0)

/-- The selection predicate as the specification words it:
"a decoded frame at index `i` is retained iff `start ≤ i < end` and
`(i − start) mod k == 0`" (stated for comparison with the implementation). -/
def specSelectedIndices (startF endF skip : ℕ) : List ℕ :=
  (List.range endF).filter
    (fun i => decide (startF ≤ i) && decide ((i - startF) % skip = 0))

theorem selectLoop_eq_filter (startF endF skip : ℕ) :
    ∀ remaining i, selectLoop startF endF skip remaining i =
      (List.range' i remaining).filter (selectedPred startF endF skip) := by
  intro remaining
  induction remaining with
  | zero => intro i; rfl
  | succ r ih =>
      intro i
      rw [List.range'_succ]
      by_cases h1 : i < startF
      · have hp : selectedPred startF endF skip i = false := by
          simp [selectedPred]; omega
        simp [selectLoop, h1, List.filter_cons, hp, ih]
      · by_cases h2 : endF ≤ i
        · have hnil : List.filter (selectedPred startF endF skip)
              (i :: List.range' (i + 1) r) = [] := by
            apply List.filter_eq_nil_iff.mpr
            intro j hj
            have hij : i ≤ j := by
              rcases List.mem_cons.mp hj with h | h
              · omega
              · have := (List.mem_range'_1.mp h).1
                omega
            simp [selectedPred]
            omega
          rw [hnil]
          simp [selectLoop, h1, h2]
        · by_cases h3 : i % skip = 0
          · have hp : selectedPred startF endF skip i = true := by
              simp [selectedPred]; omega
            simp [selectLoop, h1, h2, h3, List.filter_cons, hp, ih]
          · have hp : selectedPred startF endF skip i = false := by
              simp [selectedPred]; omega
            simp [selectLoop, h1, h2, h3, List.filter_cons, hp, ih]

theorem composerLoop_eq_filter (skip : ℕ) :
    ∀ remaining i, composerLoop skip remaining i =
      (List.range' i remaining).filter (fun j => decide (j % skip = 0)) := by
  intro remaining
  induction remaining with
  | zero => intro i; rfl
  | succ r ih =>
      intro i
      rw [List.range'_succ]
      by_cases h3 : i % skip = 0 <;>
        simp [composerLoop, h3, List.filter_cons, ih]

/-- The three selection loops as filters over the decoded index range. -/
theorem extractIndices_eq_filter (totalFrames : ℕ) (fr : Option (ℕ × ℕ)) (skip : ℕ) :
    rawExtractIndices totalFrames fr skip =
      (List.range totalFrames).filter
        (selectedPred (startFrameOf fr) (endFrameOf totalFrames fr) skip) ∧
    overlayExtractIndices totalFrames fr skip =
      (List.range totalFrames).filter
        (selectedPred (startFrameOf fr) (endFrameOf totalFrames fr) skip) ∧
    composerWrittenIndices totalFrames skip =
      (List.range totalFrames).filter (fun j => decide (j % skip = 0)) := by
  refine ⟨?_, ?_, ?_⟩
  · rw [rawExtractIndices, selectLoop_eq_filter, List.range_eq_range']
  · rw [overlayExtractIndices, selectLoop_eq_filter, List.range_eq_range']
  · rw [composerWrittenIndices, composerLoop_eq_filter, List.range_eq_range']

/-- Counting multiples of `k` below `e`: `⌈e / k⌉`. -/
theorem countP_multiples (k : ℕ) (hk : 1 ≤ k) :
    ∀ e, (List.range e).countP (fun i => decide (i % k = 0)) = (e + k - 1) / k := by
  intro e
  induction e with
  | zero =>
      simp [Nat.div_eq_of_lt (show k - 1 < k by omega)]
  | succ e ih =>
      have hk0 : 0 < k := by omega
      have hq := Nat.div_add_mod e k
      have hsucc : (e + 1 + k - 1) / k = e / k + 1 := by
        have hek : e + 1 + k - 1 = e + k := by omega
        rw [hek, Nat.add_div_right _ hk0]
      rw [List.range_succ, List.countP_append, ih, List.countP_cons]
      by_cases h : e % k = 0
      · have he : e + k - 1 = (k - 1) + k * (e / k) := by omega
        have hceil : (e + k - 1) / k = e / k := by
          rw [he, Nat.add_mul_div_left _ _ hk0,
            Nat.div_eq_of_lt (show k - 1 < k by omega), Nat.zero_add]
        rw [hceil, hsucc]
        simp [h]
      · have hmlt : e % k < k := Nat.mod_lt e hk0
        have hdist : k * (e / k + 1) = k * (e / k) + k := by ring
        have he : e + k - 1 = (e % k - 1) + k * (e / k + 1) := by omega
        have hceil : (e + k - 1) / k = e / k + 1 := by
          rw [he, Nat.add_mul_div_left _ _ hk0,
            Nat.div_eq_of_lt (show e % k - 1 < k by omega), Nat.zero_add]
        rw [hceil, hsucc]
        simp [h]

/-- For `m` a multiple of `k`, the ceiling division `⌈m/k⌉` collapses to `m/k`. -/
theorem ceil_div_eq_of_mod_eq_zero (m k : ℕ) (hk : 0 < k) (h : m % k = 0) :
    (m + k - 1) / k = m / k := by
  have hq := Nat.div_add_mod m k
  have he : m + k - 1 = (k - 1) + k * (m / k) := by omega
  rw [he, Nat.add_mul_div_left _ _ hk,
    Nat.div_eq_of_lt (show k - 1 < k by omega), Nat.zero_add]

/-- The number of indices retained by the extractor selection over decoded
range `[0, total)` with window `[s, e)` (with `e ≤ total`) and skip `k`. -/
theorem length_filter_selected (total s e k : ℕ) (hk : 1 ≤ k) (he : e ≤ total) :
    ((List.range total).filter (selectedPred s e k)).length =
      (e + k - 1) / k - (s + k - 1) / k := by
  by_cases hse : s ≤ e
  · have hsplit1 : List.range' 0 s ++ List.range' s (e - s) = List.range' 0 e := by
      have he2 : e - s + s = e := by omega
      simpa [he2] using List.range'_append 0 s (e - s) 1
    have hsplit2 : List.range' 0 e ++ List.range' e (total - e) = List.range' 0 total := by
      have he2 : total - e + e = total := by omega
      simpa [he2] using List.range'_append 0 e (total - e) 1
    have hrange : List.range total =
        (List.range' 0 s ++ List.range' s (e - s)) ++ List.range' e (total - e) := by
      rw [hsplit1, hsplit2, List.range_eq_range']
    have hlow : (List.range' 0 s).filter (selectedPred s e k) = [] := by
      apply List.filter_eq_nil_iff.mpr
      intro j hj
      have := (List.mem_range'_1.mp hj).2
      simp [selectedPred]
      omega
    have hhigh : (List.range' e (total - e)).filter (selectedPred s e k) = [] := by
      apply List.filter_eq_nil_iff.mpr
      intro j hj
      have := (List.mem_range'_1.mp hj).1
      simp [selectedPred]
      omega
    have hmid : (List.range' s (e - s)).filter (selectedPred s e k) =
        (List.range' s (e - s)).filter (fun j => decide (j % k = 0)) := by
      apply List.filter_congr
      intro j hj
      have h1 := (List.mem_range'_1.mp hj).1
      have h2 := (List.mem_range'_1.mp hj).2
      simp [selectedPred]
      omega
    have hcount : (List.range' 0 s).countP (fun j => decide (j % k = 0)) +
        (List.range' s (e - s)).countP (fun j => decide (j % k = 0)) =
        (e + k - 1) / k := by
      have := countP_multiples k hk e
      rw [List.range_eq_range', ← hsplit1, List.countP_append] at this
      exact this
    have hcs : (List.range' 0 s).countP (fun j => decide (j % k = 0)) =
        (s + k - 1) / k := by
      have := countP_multiples k hk s
      rwa [List.range_eq_range'] at this
    rw [hrange, List.filter_append, List.filter_append, hlow, hhigh, hmid]
    simp only [List.nil_append, List.append_nil]
    rw [← List.countP_eq_length_filter]
    omega
  · have hnil : (List.range total).filter (selectedPred s e k) = [] := by
      apply List.filter_eq_nil_iff.mpr
      intro j _
      simp [selectedPred]
      omega
    have hle : (e + k - 1) / k ≤ (s + k - 1) / k :=
      Nat.div_le_div_right (by omega)
    rw [hnil]
    simp
    omega

/-- C1 (counterexample): with `frame_range = (1, 2)` and `frame_skip = 2` on a
2-frame video, the raw extractor retains no frame, while the claimed rule
`start ≤ i < end ∧ (i − start) mod k = 0` selects frame 1 and the claimed
count `⌈(end−start)/skip⌉` is 1. -/
theorem selection_claim_counterexample :
    rawExtractIndices 2 (some (1, 2)) 2 = [] ∧
    specSelectedIndices 1 2 2 = [1] ∧
    ((2 - 1) + 2 - 1) / 2 = 1 ∧
    (rawExtractIndices 2 (some (1, 2)) 2).length = 0 := by
  decide

/-- C1 (amended): the raw and overlay extractors retain a decoded frame at
index `i` iff `start ≤ i < min(end, total)` and `i mod k = 0` (the skip is
anchored at absolute index 0, not at `start`); the video composer applies no
window at all and retains iff `i mod k = 0`.  The number of retained frames is
`⌈min(end,total)/k⌉ − ⌈start/k⌉`, which equals the spec's
`⌈(end_eff − start)/k⌉` exactly when `start` is a multiple of `k`. -/
theorem selection_amended (totalFrames : ℕ) (fr : Option (ℕ × ℕ)) (k : ℕ)
    (hk : 1 ≤ k) :
    rawExtractIndices totalFrames fr k =
      (List.range totalFrames).filter
        (selectedPred (startFrameOf fr) (endFrameOf totalFrames fr) k) ∧
    overlayExtractIndices totalFrames fr k =
      (List.range totalFrames).filter
        (selectedPred (startFrameOf fr) (endFrameOf totalFrames fr) k) ∧
    composerWrittenIndices totalFrames k =
      (List.range totalFrames).filter (fun j => decide (j % k = 0)) ∧
    (rawExtractIndices totalFrames fr k).length =
      (endFrameOf totalFrames fr + k - 1) / k - (startFrameOf fr + k - 1) / k ∧
    (startFrameOf fr % k = 0 → startFrameOf fr ≤ endFrameOf totalFrames fr →
      (rawExtractIndices totalFrames fr k).length =
        (endFrameOf totalFrames fr - startFrameOf fr + k - 1) / k) := by
  obtain ⟨hraw, hov, hcomp⟩ := extractIndices_eq_filter totalFrames fr k
  have hle : endFrameOf totalFrames fr ≤ totalFrames := by
    cases fr with
    | none => simp [endFrameOf]
    | some r => simp [endFrameOf]
  have hlen : (rawExtractIndices totalFrames fr k).length =
      (endFrameOf totalFrames fr + k - 1) / k - (startFrameOf fr + k - 1) / k := by
    rw [hraw]
    exact length_filter_selected totalFrames _ _ k hk hle
  refine ⟨hraw, hov, hcomp, hlen, ?_⟩
  intro hmod hse
  have hk0 : 0 < k := by omega
  have hq := Nat.div_add_mod (startFrameOf fr) k
  have h1 : endFrameOf totalFrames fr + k - 1 =
      (endFrameOf totalFrames fr - startFrameOf fr + k - 1) + k * (startFrameOf fr / k) := by
    omega
  rw [hlen, ceil_div_eq_of_mod_eq_zero _ k hk0 hmod, h1,
    Nat.add_mul_div_left _ _ hk0, Nat.add_sub_cancel]

/-- C1 witness: the amended selection theorem evaluated on a 5-frame video
with window `(2, 4)` and skip 2. -/
theorem selection_amended_witness :
    (1 ≤ 2) ∧
    (rawExtractIndices 5 (some (2, 4)) 2 =
      (List.range 5).filter (selectedPred (startFrameOf (some (2, 4))) (endFrameOf 5 (some (2, 4))) 2) ∧
    overlayExtractIndices 5 (some (2, 4)) 2 =
      (List.range 5).filter (selectedPred (startFrameOf (some (2, 4))) (endFrameOf 5 (some (2, 4))) 2) ∧
    composerWrittenIndices 5 2 = (List.range 5).filter (fun j => decide (j % 2 = 0)) ∧
    (rawExtractIndices 5 (some (2, 4)) 2).length =
      (endFrameOf 5 (some (2, 4)) + 2 - 1) / 2 - (startFrameOf (some (2, 4)) + 2 - 1) / 2 ∧
    (startFrameOf (some (2, 4)) % 2 = 0 → startFrameOf (some (2, 4)) ≤ endFrameOf 5 (some (2, 4)) →
      (rawExtractIndices 5 (some (2, 4)) 2).length =
        (endFrameOf 5 (some (2, 4)) - startFrameOf (some (2, 4)) + 2 - 1) / 2)) :=
  ⟨by decide, selection_amended 5 (some (2, 4)) 2 (by decide)⟩

/-- C10: when the configured `end` exceeds the video's frame count, both
extractors behave exactly as if the window ended at the frame count: the
effective end is `min(end, total) = total`, the retained-frame set is
unchanged by replacing `end` with `total`, and the progress denominator is
`total − start`. -/
theorem clamp_end_to_total (totalFrames a b k : ℕ) (hb : totalFrames < b) :
    rawExtractIndices totalFrames (some (a, b)) k =
      rawExtractIndices totalFrames (some (a, totalFrames)) k ∧
    overlayExtractIndices totalFrames (some (a, b)) k =
      overlayExtractIndices totalFrames (some (a, totalFrames)) k ∧
    endFrameOf totalFrames (some (a, b)) = totalFrames ∧
    progressDenom totalFrames (some (a, b)) = (totalFrames : ℤ) - (a : ℤ) := by
  have hmin : min b totalFrames = totalFrames := min_eq_right (le_of_lt hb)
  refine ⟨?_, ?_, ?_, ?_⟩ <;>
    simp [rawExtractIndices, overlayExtractIndices, endFrameOf, startFrameOf,
      progressDenom, hmin]

/-- C10 witness: clamping evaluated on a 3-frame video with `end = 5`. -/
theorem clamp_end_to_total_witness :
    (3 < 5) ∧
    (rawExtractIndices 3 (some (1, 5)) 2 = rawExtractIndices 3 (some (1, 3)) 2 ∧
    overlayExtractIndices 3 (some (1, 5)) 2 = overlayExtractIndices 3 (some (1, 3)) 2 ∧
    endFrameOf 3 (some (1, 5)) = 3 ∧
    progressDenom 3 (some (1, 5)) = (3 : ℤ) - (1 : ℤ)) :=
  ⟨by decide, clamp_end_to_total 3 1 5 2 (by decide)⟩

/-! ## Claim C4: grouping places unstamped poses at key `None`, not frame 0 -/

/-- A pose with no frame stamp (the dataclass defaults). -/
def unstampedPose : Pose :=
  { joints := [], person_id := 7 }

/-- C4 (counterexample): grouping a single unstamped pose produces one bucket
keyed `None`; the bucket for frame 0 is empty, refuting "placed in the bucket
for frame 0". -/
theorem grouping_default_counterexample :
    groupPosesByFrame [unstampedPose] = [(none, [unstampedPose])] ∧
    bucketAt (groupPosesByFrame [unstampedPose]) (some 0) = [] := by
  constructor <;> rfl

/-- C4 (amended): every pose lands in exactly one bucket — the bucket keyed by
its `frame_number` value (the `None` key for unstamped poses, since the
dataclass attribute always exists and the `getattr` default 0 is dead code) —
each bucket holds exactly the poses with that key in input order, and bucket
keys are pairwise distinct. -/
theorem grouping_amended (poses : List Pose) :
    (∀ k : Option ℤ, bucketAt (groupPosesByFrame poses) k =
        poses.filter (fun p => p.frame_number = k)) ∧
    (groupKeys (groupPosesByFrame poses)).Nodup :=
  ⟨fun k => bucketAt_group_eq_filter poses k, groupPosesByFrame_keys_nodup poses⟩

/-! ## Toronto Gait export (src/posedetect/exporters/json_exporter.py)

`JSONExporter._export_toronto_gait` builds, for each frame index
`0 ≤ i < total_frames`, a record with `timestamp = i / fps`, the first pose of
the frame's bucket (or `person_id = -1` and all-zero keypoints when the bucket
is empty), and a keypoints dict initialized to zeros over the fixed joint
vocabulary and overwritten from the chosen pose's joints through the
COCO→Toronto name mapping. -/

/-- Modelled from the spec: the constant `TORONTO_GAIT_JOINT_ORDER` lives in
the Toronto Gait part of src/posedetect/exporters/csv_exporter.py, which is
missing from the source tree (json_exporter.py imports it; the tests exercise
it).  The spec fixes "a fixed 17-joint ordered vocabulary" in COCO_17 order
with the abbreviated Toronto names used throughout the spec's schemas. -/
def TORONTO_GAIT_JOINT_ORDER : List String :=
  ["Nose", "LEye", "REye", "LEar", "REar", "LShoulder", "RShoulder",
   "LElbow", "RElbow", "LWrist", "RWrist", "LHip", "RHip",
   "LKnee", "RKnee", "LAnkle", "RAnkle"]

/-- Modelled from the spec: the constant `TORONTO_GAIT_JOINT_MAPPING`
(COCO joint name → Toronto joint name) also lives in the missing Toronto Gait
part of csv_exporter.py; the mapping pairs the COCO_17 names produced by the
detectors with the vocabulary of `TORONTO_GAIT_JOINT_ORDER`. -/
def TORONTO_GAIT_JOINT_MAPPING : List (String × String) :=
  [("nose", "Nose"), ("left_eye", "LEye"), ("right_eye", "REye"),
   ("left_ear", "LEar"), ("right_ear", "REar"),
   ("left_shoulder", "LShoulder"), ("right_shoulder", "RShoulder"),
   ("left_elbow", "LElbow"), ("right_elbow", "RElbow"),
   ("left_wrist", "LWrist"), ("right_wrist", "RWrist"),
   ("left_hip", "LHip"), ("right_hip", "RHip"),
   ("left_knee", "LKnee"), ("right_knee", "RKnee"),
   ("left_ankle", "LAnkle"), ("right_ankle", "RAnkle")]

/-- `TORONTO_GAIT_JOINT_MAPPING.get(joint.name)`. -/
def mappingGet (name : String) : Option String :=
  (TORONTO_GAIT_JOINT_MAPPING.find? (fun kv => kv.1 == name)).map Prod.snd

/-- The `{x, y, confidence}` dict of one keypoint in the export. -/
structure TorontoKeypoint where
  x : ℚ
  y : ℚ
  confidence : ℚ
deriving DecidableEq, Repr

/-- One entry of the `frames` array of the Toronto Gait JSON document.
`keypoints` is an insertion-ordered dict. -/
structure TorontoFrame where
  frame_number : ℕ
  timestamp : ℚ
  person_id : ℤ
  keypoints : List (String × TorontoKeypoint)
deriving DecidableEq, Repr

/-- Python dict assignment `m[k] = v`: overwrite in place, append if new. -/
def kpDictSet (m : List (String × TorontoKeypoint)) (k : String)
    (v : TorontoKeypoint) : List (String × TorontoKeypoint) :=
  match m with
  | [] => [(k, v)]
  | (k', v') :: rest =>
      if k' = k then (k', v) :: rest else (k', v') :: kpDictSet rest k v

/-- The zero-initialized keypoints dict over the joint vocabulary. -/
def zeroKeypoints : List (String × TorontoKeypoint) :=
  TORONTO_GAIT_JOINT_ORDER.map (fun n => (n, ⟨0, 0, 0⟩))

/-- The keypoint-filling loop of `_export_toronto_gait`: zeros, then each of
the pose's joints whose name maps overwrites its Toronto entry. -/
def buildKeypoints (p : Pose) : List (String × TorontoKeypoint) :=
  p.joints.foldl
    (fun m j =>
      match mappingGet j.name with
      | some tn => kpDictSet m tn ⟨j.keypoint.x, j.keypoint.y, j.keypoint.confidence⟩
      | none => m)
    zeroKeypoints

/-- The `video_metadata` dict: both keys are read with `.get`, so either may
be absent. -/
structure VideoMeta where
  total_frames : Option ℤ := none
  fps : Option ℚ := none
deriving DecidableEq, Repr

/-- `total_frames = video_metadata.get('total_frames', 0) if video_metadata
else 0`. -/
def metaTotalFrames (vm : Option VideoMeta) : ℤ :=
  match vm with
  | some m => m.total_frames.getD 0
  | none => 0

/-- `fps = video_metadata.get('fps', 30.0) if video_metadata else 30.0`. -/
def effFps (vm : Option VideoMeta) : ℚ :=
  match vm with
  | some m => m.fps.getD 30
  | none => 30

/-- `max(getattr(pose, 'frame_number', 0) for pose in poses)`: the attribute
always exists (possibly `None`); Python's `max` raises `TypeError` when `None`
meets an `int` comparison, and a lone `None` maximum raises `TypeError` at the
subsequent `+ 1` — so the computation succeeds exactly when every pose is
stamped.  `max(())` over no poses raises `ValueError` (unreachable here). -/
def pyMaxFrame (poses : List Pose) : Except PyError ℤ :=
  if poses.all (fun p => p.frame_number.isSome) then
    match poses.filterMap (fun p => p.frame_number) with
    | [] => .error .valueError
    | x :: xs => .ok (xs.foldl max x)
  else .error .typeError

/-- The `total_frames` computation of `_export_toronto_gait`: metadata value
if nonzero, else `max(frame_number) + 1` over a nonempty pose list. -/
def torontoTotalFrames (poses : List Pose) (vm : Option VideoMeta) :
    Except PyError ℤ :=
  if metaTotalFrames vm = 0 ∧ poses ≠ [] then
    match pyMaxFrame poses with
    | .error e => .error e
    | .ok mx => .ok (mx + 1)
  else .ok (metaTotalFrames vm)

/-- The frame record built from the bucket's first pose (`frame_poses[0]`). -/
def frameRecordOfPose (fps : ℚ) (i : ℕ) (pose : Pose) : TorontoFrame :=
  { frame_number := i
    timestamp := (i : ℚ) / fps
    person_id := pose.person_id
    keypoints := buildKeypoints pose }

/-- One iteration of the `for frame_number in range(total_frames)` loop. -/
def frameRecord (fps : ℚ) (pbf : List (Option ℤ × List Pose)) (i : ℕ) :
    TorontoFrame :=
  match bucketAt pbf (some (i : ℤ)) with
  | pose :: _ => frameRecordOfPose fps i pose
  | [] =>
      { frame_number := i
        timestamp := (i : ℚ) / fps
        person_id := -1
        keypoints := zeroKeypoints }

/-- `JSONExporter._export_toronto_gait`: the `frames` array of the produced
document (the surrounding `metadata` dict carries constants plus the wall
clock `export_time` and is not part of any claim). -/
def exportTorontoGait (poses : List Pose) (vm : Option VideoMeta) :
    Except PyError (List TorontoFrame) :=
  match torontoTotalFrames poses vm with
  | .error e => .error e
  | .ok t =>
      .ok ((List.range t.toNat).map (frameRecord (effFps vm) (groupPosesByFrame poses)))

/-- `JSONExporter.export_poses`: refuses an empty pose list, then exports. -/
def exportPoses (poses : List Pose) (vm : Option VideoMeta) :
    Except PyError (List TorontoFrame) :=
  if poses.isEmpty then .error .valueError else exportTorontoGait poses vm

/-- Successful exports decompose into a frame-count and the per-index map. -/
theorem exportPoses_ok (poses : List Pose) (vm : Option VideoMeta)
    (frames : List TorontoFrame) (h : exportPoses poses vm = .ok frames) :
    poses ≠ [] ∧ ∃ t, torontoTotalFrames poses vm = .ok t ∧
      frames = (List.range t.toNat).map
        (frameRecord (effFps vm) (groupPosesByFrame poses)) := by
  unfold exportPoses at h
  by_cases hp : poses.isEmpty
  · rw [if_pos hp] at h
    cases h
  · rw [if_neg hp] at h
    unfold exportTorontoGait at h
    refine ⟨fun he => hp (by simp [he]), ?_⟩
    cases ht : torontoTotalFrames poses vm with
    | error e => rw [ht] at h; cases h
    | ok t =>
        rw [ht] at h
        exact ⟨t, rfl, by injection h with h'; exact h'.symm⟩

/-- In a successful export, the record at position `i` is the loop body's
record for frame index `i`. -/
theorem exportPoses_get (poses : List Pose) (vm : Option VideoMeta)
    (frames : List TorontoFrame) (h : exportPoses poses vm = .ok frames)
    (i : ℕ) (hi : i < frames.length) :
    frames.get ⟨i, hi⟩ = frameRecord (effFps vm) (groupPosesByFrame poses) i := by
  obtain ⟨-, t, -, hfr⟩ := exportPoses_ok poses vm frames h
  subst hfr
  simp [List.get_eq_getElem, List.getElem_map, List.getElem_range]

/-- Concrete pose for the Toronto Gait witnesses. -/
def poseW2 : Pose := { joints := [], person_id := 5, frame_number := some 0 }

/-- Concrete video metadata for the Toronto Gait witnesses. -/
def metaW2 : VideoMeta := { total_frames := some 2, fps := some 10 }

/-- Expected export of `[poseW2]` under `metaW2`. -/
def framesW2 : List TorontoFrame :=
  [frameRecordOfPose 10 0 poseW2,
   { frame_number := 1, timestamp := (1 : ℚ) / 10, person_id := -1,
     keypoints := zeroKeypoints }]

/-- C6: in a successful export, record `i` has timestamp `i / fps`; when poses
exist at `i`, the record is built from the bucket's first pose alone (the
remaining simultaneous poses do not influence it); when none exist, the
record's `person_id` is −1. -/
theorem toronto_frame_primary_pose (poses : List Pose) (vm : Option VideoMeta)
    (frames : List TorontoFrame) (h : exportPoses poses vm = .ok frames) :
    ∀ i (hi : i < frames.length),
      (frames.get ⟨i, hi⟩).timestamp = (i : ℚ) / effFps vm ∧
      (∀ pose rest,
          bucketAt (groupPosesByFrame poses) (some (i : ℤ)) = pose :: rest →
          frames.get ⟨i, hi⟩ = frameRecordOfPose (effFps vm) i pose) ∧
      (bucketAt (groupPosesByFrame poses) (some (i : ℤ)) = [] →
          (frames.get ⟨i, hi⟩).person_id = -1) := by
  intro i hi
  rw [exportPoses_get poses vm frames h i hi]
  refine ⟨?_, ?_, ?_⟩
  · cases hb : bucketAt (groupPosesByFrame poses) (some (i : ℤ)) <;>
      simp [frameRecord, frameRecordOfPose, hb]
  · intro pose rest hb
    simp [frameRecord, hb]
  · intro hb
    simp [frameRecord, hb]

/-- C6 witness: the frame-record theorem evaluated on one pose at frame 0 with
metadata `total_frames = 2`: the poseless record 1 carries `person_id = −1`. -/
theorem toronto_frame_primary_pose_witness :
    (framesW2.get ⟨1, by decide⟩).person_id = -1 :=
  (toronto_frame_primary_pose [poseW2] (some metaW2) framesW2 (by rfl)
    1 (by decide)).2.2 (by rfl)

/-! ## Claim C3: Toronto Gait CSV vs JSON -/

/-- One row of the Toronto Gait CSV table: the `time` column followed by the
per-joint `(x, y, conf)` cells over the fixed joint vocabulary. -/
structure TorontoCsvRow where
  time : ℚ
  cells : List (String × TorontoKeypoint)
deriving DecidableEq, Repr

/-- Modelled from the spec: the Pose Timeline Index lookup used by the missing
CSV exporter — "mapping frame_number → ordered sequence of Pose (insertion
order preserved per frame)" with "grouping key `frame_number` with default 0
for unstamped poses" (spec §3, §4.1). -/
def specTimelineLookup (poses : List Pose) (i : ℤ) : List Pose :=
  poses.filter (fun p => p.frame_number.getD 0 = i)

/-- Modelled from the spec: the per-row joint cells of the missing CSV
exporter — "each joint's (x, y, confidence) is copied from the chosen pose if
a joint of that name exists among its joints, else written as (0, 0, 0)"
(spec §4.7), over the fixed vocabulary through the COCO→Toronto name
mapping. -/
def specCsvCells (pose : Pose) : List (String × TorontoKeypoint) :=
  pose.joints.foldl
    (fun m j =>
      match mappingGet j.name with
      | some tn => kpDictSet m tn ⟨j.keypoint.x, j.keypoint.y, j.keypoint.confidence⟩
      | none => m)
    zeroKeypoints

/-- Modelled from the spec: the Toronto Gait CSV exporter — the
`CSVFormat.TORONTO_GAIT` branch of `CSVExporter` — is missing from
src/posedetect/exporters/csv_exporter.py (its enum has only
NORMALIZED/WIDE/SUMMARY, while json_exporter.py imports the Toronto constants
from that module and the tests exercise the format).  Per spec §4.7/§6 the
exporter writes one row per frame index `0 .. total_frames−1`, ascending,
with `time = i / fps` and the cells of the first pose of the timeline bucket
at `i`, zero-filled when the frame has no pose. -/
def torontoCsvRows (poses : List Pose) (totalFrames : ℕ) (fps : ℚ) :
    List TorontoCsvRow :=
  (List.range totalFrames).map (fun (i : ℕ) =>
    match specTimelineLookup poses (i : ℤ) with
    | pose :: _ => { time := (i : ℚ) / fps, cells := specCsvCells pose }
    | [] => { time := (i : ℚ) / fps, cells := zeroKeypoints })

/-- An unstamped pose with one detected nose joint. -/
def poseC3 : Pose :=
  { joints := [{ name := "nose",
                 keypoint := { x := 1, y := 2, confidence := 1 },
                 joint_id := 0 }],
    person_id := 0 }

/-- C3 (counterexample): on the pose set `[poseC3]` (one unstamped pose) with
metadata `total_frames = 1, fps = 30`, the spec's CSV places the pose's nose
triple in row 0 while the source JSON export records frame 0 as poseless
(all-zero joints): the two exports do not agree on the joint values. -/
theorem csv_json_counterexample :
    (torontoCsvRows [poseC3] 1 30).map (fun r => r.cells) =
      [specCsvCells poseC3] ∧
    (exportPoses [poseC3] (some { total_frames := some 1, fps := some 30 })).toOption.map
        (fun fs => fs.map (fun f => f.keypoints)) = some [zeroKeypoints] ∧
    specCsvCells poseC3 ≠ zeroKeypoints := by
  refine ⟨by rfl, by rfl, by decide⟩

/-- Under an all-stamped pose set, the spec's timeline lookup coincides with
the source grouping's bucket. -/
theorem specTimelineLookup_eq_bucketAt (poses : List Pose)
    (hs : ∀ p ∈ poses, (p.frame_number).isSome) (i : ℤ) :
    specTimelineLookup poses i = bucketAt (groupPosesByFrame poses) (some i) := by
  rw [bucketAt_group_eq_filter, specTimelineLookup]
  apply List.filter_congr
  intro p hp
  have hsp := hs p hp
  cases hfn : p.frame_number with
  | none => rw [hfn] at hsp; cases hsp
  | some v => simp [hfn]

/-- The spec's cell-filling loop and the source's keypoint-filling loop are
the same computation. -/
theorem specCsvCells_eq_buildKeypoints (p : Pose) :
    specCsvCells p = buildKeypoints p := rfl

/-- C3 (amended): for pose sets in which every pose carries a frame stamp, the
spec-modelled Toronto Gait CSV export and the source JSON export agree exactly
on the per-row time/timestamp and on every frame's joint triples.  (The
restriction is forced: the source JSON keys unstamped poses under `None` and
never surfaces them, while the spec's timeline index places them at
frame 0.) -/
theorem csv_json_agreement (poses : List Pose) (totalF : ℕ) (fps : ℚ)
    (frames : List TorontoFrame)
    (h0 : 0 < totalF)
    (hs : ∀ p ∈ poses, (p.frame_number).isSome)
    (h : exportTorontoGait poses
        (some { total_frames := some (totalF : ℤ), fps := some fps }) = .ok frames) :
    torontoCsvRows poses totalF fps =
      frames.map (fun f => { time := f.timestamp, cells := f.keypoints }) := by
  have hmt : metaTotalFrames
      (some { total_frames := some (totalF : ℤ), fps := some fps }) = (totalF : ℤ) := rfl
  unfold exportTorontoGait torontoTotalFrames at h
  rw [hmt, if_neg (fun hc => by have := hc.1; omega)] at h
  have hfr : frames = (List.range totalF).map
      (frameRecord fps (groupPosesByFrame poses)) := by
    have heff : effFps (some { total_frames := some (totalF : ℤ), fps := some fps }) = fps := rfl
    have htn : ((totalF : ℤ)).toNat = totalF := Int.toNat_natCast totalF
    injection h with h'
    rw [← h', heff, htn]
  subst hfr
  rw [torontoCsvRows, List.map_map]
  apply List.map_congr_left
  intro i _
  simp only [Function.comp_apply]
  rw [specTimelineLookup_eq_bucketAt poses hs (i : ℤ)]
  cases hb : bucketAt (groupPosesByFrame poses) (some (i : ℤ)) <;>
    simp [frameRecord, frameRecordOfPose, hb, specCsvCells_eq_buildKeypoints]

/-- `poseC3` with a frame stamp, for the C3 witness. -/
def poseW3 : Pose := { poseC3 with frame_number := some 0 }

/-- Expected JSON export of `[poseW3]` with `total_frames = 1`. -/
def framesW3 : List TorontoFrame := [frameRecordOfPose 30 0 poseW3]

/-- C3 witness: the agreement theorem evaluated on one stamped pose with
`total_frames = 1, fps = 30`. -/
theorem csv_json_agreement_witness :
    torontoCsvRows [poseW3] 1 30 =
      framesW3.map (fun f => { time := f.timestamp, cells := f.keypoints }) :=
  csv_json_agreement [poseW3] 1 30 framesW3 (by decide) (by decide) (by rfl)

/-! ## Claim C5: phase failure isolation
(src/posedetect/video/frame_extraction.py,
`FrameExtractionManager.extract_all_frame_types`;
src/posedetect/utils/output_manager.py, `OutputManager.export_all_formats`)

The orchestrator runs the raw phase, then the overlay phase; each phase's
`except Exception: ... raise` re-raises, so an overlay failure propagates and
the whole `results` dict (including the already-populated `raw_frames` list)
is lost.  `export_all_formats` wraps the comprehensive-extraction call in
`try/except Exception: logger.warning(...)`, leaving its entry at the initial
empty dict.  The outcome of each phase (list of written paths, or the
exception raised mid-run) enters the embedding as a parameter; file paths are
modelled as `ℕ`. -/

/-- The results dict of `extract_all_frame_types` (the `directories` entry is
filesystem state and carries no claim). -/
structure ExtractionResults where
  raw_frames : List ℕ
  overlay_frames : List ℕ
deriving DecidableEq, Repr

/-- `FrameExtractionManager.extract_all_frame_types`: raw phase (when
configured), then overlay phase (when configured and poses are present);
either phase's exception is re-raised, discarding `results`.  When overlay
extraction is requested without poses, the phase is skipped with a warning. -/
def extractAllFrameTypes (extractRaw extractOverlay : Bool)
    (rawOutcome overlayOutcome : Except PyError (List ℕ)) (poses : List Pose) :
    Except PyError ExtractionResults :=
  match (if extractRaw then rawOutcome else .ok []) with
  | .error e => .error e
  | .ok raw =>
      if extractOverlay ∧ poses ≠ [] then
        match overlayOutcome with
        | .error e => .error e
        | .ok ov => .ok { raw_frames := raw, overlay_frames := ov }
      else .ok { raw_frames := raw, overlay_frames := [] }

/-- The `exported_files` dict returned by `export_all_formats`
(`video`/`frames` sections behave like `comprehensive_frames` and are elided;
`comprehensive_frames = none` models its initial `{}`). -/
structure ExportedFiles where
  json : Bool
  csv : List String
  comprehensive_frames : Option ExtractionResults
deriving DecidableEq, Repr

/-- The `export_all_formats` flow for a run with CSV and comprehensive frames
enabled: empty pose list raises `ValueError`; JSON and the CSV formats are
exported; the comprehensive frame extraction runs inside
`try/except Exception` — on failure a warning is logged and the entry stays
empty. -/
def exportAllFormats (poses : List Pose) (includeComprehensive : Bool)
    (extractRaw extractOverlay : Bool)
    (rawOutcome overlayOutcome : Except PyError (List ℕ)) :
    Except PyError ExportedFiles :=
  if poses = [] then .error .valueError
  else
    .ok { json := true
          csv := ["normalized", "wide", "summary"]
          comprehensive_frames :=
            if includeComprehensive then
              match extractAllFrameTypes extractRaw extractOverlay
                  rawOutcome overlayOutcome poses with
              | .error _ => none
              | .ok r => some r
            else none }

/-- C5 (counterexample): raw extraction completed (`[0, 1]` written) and
overlay extraction raised `IOError`; `export_all_formats` returns normally
with its sibling exports, but `comprehensive_frames` is empty — the completed
raw phase result is NOT returned to the caller, refuting "the
already-completed raw frame extraction phase result is still returned". -/
theorem phase_failure_counterexample :
    extractAllFrameTypes true true (.ok [0, 1]) (.error .ioError) [unstampedPose] =
      .error .ioError ∧
    exportAllFormats [unstampedPose] true true true (.ok [0, 1]) (.error .ioError) =
      .ok { json := true, csv := ["normalized", "wide", "summary"],
            comprehensive_frames := none } := by
  exact ⟨rfl, rfl⟩

/-- C5 (amended): when overlay frame extraction raises after a completed raw
phase, the orchestrator re-raises, discarding the in-memory result (including
the raw frame list); `export_all_formats` catches the failure and converts it
to a warning, so the JSON/CSV sibling exports complete and the function
returns normally — but with `comprehensive_frames` empty: only the on-disk
files of the raw phase survive, nothing of the phase is returned. -/
theorem phase_failure_isolation (poses : List Pose) (rawFrames : List ℕ)
    (e : PyError) (hp : poses ≠ []) :
    extractAllFrameTypes true true (.ok rawFrames) (.error e) poses = .error e ∧
    exportAllFormats poses true true true (.ok rawFrames) (.error e) =
      .ok { json := true, csv := ["normalized", "wide", "summary"],
            comprehensive_frames := none } := by
  have hx : extractAllFrameTypes true true (.ok rawFrames) (.error e) poses =
      .error e := by
    simp [extractAllFrameTypes, hp]
  refine ⟨hx, ?_⟩
  rw [exportAllFormats, if_neg hp]
  simp [hx]

/-- C5 witness: the isolation theorem evaluated on one pose with raw result
`[0, 1]` and an overlay-phase `IOError`. -/
theorem phase_failure_isolation_witness :
    extractAllFrameTypes true true (.ok [0, 1]) (.error .ioError) [poseW3] =
      .error .ioError ∧
    exportAllFormats [poseW3] true true true (.ok [0, 1]) (.error .ioError) =
      .ok { json := true, csv := ["normalized", "wide", "summary"],
            comprehensive_frames := none } :=
  phase_failure_isolation [poseW3] [0, 1] .ioError (by decide)

/-! ## Overlay renderer
(src/posedetect/video/frame_extraction.py,
`OverlayFrameExtractor._draw_poses_on_frame` / `_draw_skeleton` /
`_draw_joints` / `_draw_person_info`; the identical methods of
`VideoOverlayGenerator` in src/posedetect/video/overlay_generator.py differ
only in reading the same visualization fields from `OverlayConfig`.)

Pixel buffers are an abstract type `F`; the cv2 primitives are external C
functions that mutate the buffer passed to them, modelled as an arbitrary
family of buffer transformers.  numpy aliasing is modelled with an explicit
buffer store (`List F`) addressed by buffer ids: `frame.copy()` allocates a
new buffer at the end of the store, and every draw call writes through the
buffer id it was given. -/

/-- The visualization parameters shared by `FrameExtractionConfig` and
`OverlayConfig`, with their common defaults. -/
structure VisConfig where
  skeleton_color : ℕ × ℕ × ℕ := (0, 255, 0)
  joint_color : ℕ × ℕ × ℕ := (255, 0, 0)
  confidence_threshold : ℚ := 1/10
  line_thickness : ℕ := 2
  joint_radius : ℕ := 4
  show_confidence : Bool := true
  show_person_id : Bool := true
  font_scale : ℚ := 1/2
  font_color : ℕ × ℕ × ℕ := (255, 255, 255)

/-- The cv2 drawing primitives used by the renderer
(`cv2.line`, `cv2.circle`, `cv2.putText`), as opaque buffer transformers. -/
structure DrawOps (F : Type) where
  line : F → (ℤ × ℤ) → (ℤ × ℤ) → (ℕ × ℕ × ℕ) → ℕ → F
  circle : F → (ℤ × ℤ) → ℕ → (ℕ × ℕ × ℕ) → F
  putText : F → String → (ℤ × ℤ) → ℚ → (ℕ × ℕ × ℕ) → F

/-- Python `int()` on a float: truncation toward zero. -/
def pyInt (q : ℚ) : ℤ := if 0 ≤ q then ⌊q⌋ else ⌈q⌉

/-- Python dict assignment for the joint lookup dict. -/
def jointDictSet (m : List (String × Joint)) (k : String) (v : Joint) :
    List (String × Joint) :=
  match m with
  | [] => [(k, v)]
  | (k', v') :: rest =>
      if k' = k then (k', v) :: rest else (k', v') :: jointDictSet rest k v

/-- `joint_dict = {joint.name: joint for joint in joints}` (later entries of
equal name overwrite earlier ones). -/
def jointDict (joints : List Joint) : List (String × Joint) :=
  joints.foldl (fun m j => jointDictSet m j.name j) []

/-- Dict lookup `joint_dict[name]` / membership `name in joint_dict`. -/
def jointDictGet (m : List (String × Joint)) (k : String) : Option Joint :=
  (m.find? (fun kv => kv.1 == k)).map Prod.snd

/-- The hard-coded skeleton adjacency list of `_draw_skeleton` (identical in
both renderer copies). -/
def skeletonConnections : List (String × String) :=
  [("nose", "left_eye"), ("nose", "right_eye"),
   ("left_eye", "left_ear"), ("right_eye", "right_ear"),
   ("nose", "left_shoulder"), ("nose", "right_shoulder"),
   ("left_shoulder", "right_shoulder"),
   ("left_shoulder", "left_elbow"), ("left_elbow", "left_wrist"),
   ("right_shoulder", "right_elbow"), ("right_elbow", "right_wrist"),
   ("left_shoulder", "left_hip"), ("right_shoulder", "right_hip"),
   ("left_hip", "right_hip"),
   ("left_hip", "left_knee"), ("left_knee", "left_ankle"),
   ("right_hip", "right_knee"), ("right_knee", "right_ankle")]

/-- `_draw_skeleton`: one `cv2.line` per connection whose two endpoint names
are both present among the qualifying joints. -/
def drawSkeleton {F : Type} (ops : DrawOps F) (cfg : VisConfig) (frame : F)
    (joints : List Joint) : F :=
  let jd := jointDict joints
  skeletonConnections.foldl
    (fun fr c =>
      match jointDictGet jd c.1, jointDictGet jd c.2 with
      | some sj, some ej =>
          ops.line fr (pyInt sj.keypoint.x, pyInt sj.keypoint.y)
            (pyInt ej.keypoint.x, pyInt ej.keypoint.y)
            cfg.skeleton_color cfg.line_thickness
      | _, _ => fr)
    frame

/-- `_draw_joints`: one filled `cv2.circle` per qualifying joint. -/
def drawJoints {F : Type} (ops : DrawOps F) (cfg : VisConfig) (frame : F)
    (joints : List Joint) : F :=
  joints.foldl
    (fun fr j =>
      ops.circle fr (pyInt j.keypoint.x, pyInt j.keypoint.y)
        cfg.joint_radius cfg.joint_color)
    frame

/-- `f"{pose.confidence:.2f}"`: formatting `None` with a float format spec
raises `TypeError`.  The decimal rendering of an actual number is simplified
to an integer-hundredths string — no claim inspects the text, only the
raising behavior. -/
def pyFormatConf (c : Option ℚ) : Except PyError String :=
  match c with
  | none => .error .typeError
  | some q => .ok (toString (round (q * 100) : ℤ))

/-- `_draw_person_info` acting on a buffer value: pick the text anchor joint
(first of nose/left_eye/right_eye present among the qualifying joints, else
the first qualifying joint), build the `P{person_id}` / confidence label, and
`cv2.putText` it. -/
def drawPersonInfoVal {F : Type} (ops : DrawOps F) (cfg : VisConfig)
    (frame : F) (pose : Pose) (joints : List Joint) : Except PyError F :=
  match joints with
  | [] => .ok frame
  | j0 :: _ =>
      let headJoints := ["nose", "left_eye", "right_eye"]
      let textJoint :=
        (headJoints.findSome? (fun n => joints.find? (fun j => j.name == n))).getD j0
      let tx := pyInt textJoint.keypoint.x
      let ty := pyInt (textJoint.keypoint.y - 10)
      let parts1 : List String :=
        if cfg.show_person_id then ["P" ++ toString pose.person_id] else []
      match (if cfg.show_confidence then
              (pyFormatConf pose.confidence).map (fun s => parts1 ++ [s])
             else .ok parts1) with
      | .error e => .error e
      | .ok parts =>
          if parts ≠ [] then
            .ok (ops.putText frame (String.intercalate " " parts) (tx, ty)
              cfg.font_scale cfg.font_color)
          else .ok frame

/-- Read buffer `i` of the store. -/
def getBuf {F : Type} [Inhabited F] (store : List F) (i : ℕ) : F :=
  store.getD i default

/-- Write buffer `i` of the store. -/
def setBuf {F : Type} (store : List F) (i : ℕ) (f : F) : List F :=
  store.set i f

/-- One iteration of the pose loop of `_draw_poses_on_frame`: filter the
joints by the confidence threshold, skip the pose entirely when none qualify,
else draw skeleton, joints and (when labeling is enabled) the person info,
each write going through the overlay buffer id. -/
def drawPoseStep {F : Type} [Inhabited F] (ops : DrawOps F) (cfg : VisConfig)
    (store : List F) (bufId : ℕ) (pose : Pose) : Except PyError (List F) :=
  let valid := pose.joints.filter
    (fun j => cfg.confidence_threshold ≤ j.keypoint.confidence)
  if valid = [] then .ok store
  else
    let s1 := setBuf store bufId (drawSkeleton ops cfg (getBuf store bufId) valid)
    let s2 := setBuf s1 bufId (drawJoints ops cfg (getBuf s1 bufId) valid)
    if cfg.show_person_id || cfg.show_confidence then
      match drawPersonInfoVal ops cfg (getBuf s2 bufId) pose valid with
      | .error e => .error e
      | .ok f => .ok (setBuf s2 bufId f)
    else .ok s2

/-- `_draw_poses_on_frame`: `overlay_frame = frame.copy()` allocates a fresh
buffer holding the input pixels; the pose loop draws into it; the overlay
buffer id is returned with the final store. -/
def drawPosesOnFrame {F : Type} [Inhabited F] (ops : DrawOps F)
    (cfg : VisConfig) (store : List F) (inputId : ℕ) (poses : List Pose) :
    Except PyError (List F × ℕ) :=
  let overlayId := store.length
  let s0 := store ++ [getBuf store inputId]
  match poses.foldlM (fun st p => drawPoseStep ops cfg st overlayId p) s0 with
  | .error e => .error e
  | .ok sFinal => .ok (sFinal, overlayId)

/-- Unfolding equation for `drawPosesOnFrame`. -/
theorem drawPosesOnFrame_def {F : Type} [Inhabited F] (ops : DrawOps F)
    (cfg : VisConfig) (store : List F) (inputId : ℕ) (poses : List Pose) :
    drawPosesOnFrame ops cfg store inputId poses =
      match List.foldlM (fun st p => drawPoseStep ops cfg st store.length p)
          (store ++ [getBuf store inputId]) poses with
      | .error e => .error e
      | .ok sF => .ok (sF, store.length) := rfl

/-- A successful pose-drawing step only writes buffer `bufId`. -/
theorem drawPoseStep_writes_only {F : Type} [Inhabited F] (ops : DrawOps F)
    (cfg : VisConfig) (store : List F) (bufId : ℕ) (pose : Pose)
    (st' : List F) (h : drawPoseStep ops cfg store bufId pose = .ok st') :
    st'.length = store.length ∧ ∀ i, i ≠ bufId → st'[i]? = store[i]? := by
  unfold drawPoseStep at h
  by_cases hv : pose.joints.filter
      (fun j => cfg.confidence_threshold ≤ j.keypoint.confidence) = []
  · rw [if_pos hv] at h
    injection h with h'
    subst h'
    exact ⟨rfl, fun i _ => rfl⟩
  · rw [if_neg hv] at h
    by_cases hl : cfg.show_person_id || cfg.show_confidence
    · rw [if_pos hl] at h
      cases hinfo : drawPersonInfoVal ops cfg
          (getBuf (setBuf (setBuf store bufId _) bufId _) bufId) pose
          (pose.joints.filter
            (fun j => cfg.confidence_threshold ≤ j.keypoint.confidence)) with
      | error e => rw [hinfo] at h; cases h
      | ok f =>
          rw [hinfo] at h
          injection h with h'
          subst h'
          refine ⟨by simp [setBuf], fun i hi => ?_⟩
          simp [setBuf, List.getElem?_set_ne (Ne.symm hi)]
    · rw [if_neg hl] at h
      injection h with h'
      subst h'
      refine ⟨by simp [setBuf], fun i hi => ?_⟩
      simp [setBuf, List.getElem?_set_ne (Ne.symm hi)]

/-- The whole pose loop only writes buffer `bufId`. -/
theorem foldDraw_writes_only {F : Type} [Inhabited F] (ops : DrawOps F)
    (cfg : VisConfig) (bufId : ℕ) :
    ∀ (poses : List Pose) (st st' : List F),
      List.foldlM (fun st p => drawPoseStep ops cfg st bufId p) st poses = .ok st' →
      st'.length = st.length ∧ ∀ i, i ≠ bufId → st'[i]? = st[i]? := by
  intro poses
  induction poses with
  | nil =>
      intro st st' h
      injection h with h'
      subst h'
      exact ⟨rfl, fun i _ => rfl⟩
  | cons p rest ih =>
      intro st st' h
      rw [List.foldlM_cons] at h
      cases hstep : drawPoseStep ops cfg st bufId p with
      | error e =>
          rw [hstep] at h
          cases h
      | ok st1 =>
          rw [hstep] at h
          have h1 := drawPoseStep_writes_only ops cfg st bufId p st1 hstep
          have h2 := ih st1 st' h
          exact ⟨h2.1.trans h1.1, fun i hi => (h2.2 i hi).trans (h1.2 i hi)⟩

/-- C7: the renderer returns a fresh overlay buffer — the input buffer's
pixels are untouched by a successful render and the returned buffer id is the
newly allocated one — and a pose whose joints all fall below the confidence
threshold contributes nothing: dropping it from the pose list leaves the
render unchanged, and rendering such a pose alone returns an overlay buffer
holding exactly the input pixels. -/
theorem renderer_fresh_canvas (F : Type) [Inhabited F] (ops : DrawOps F)
    (cfg : VisConfig) (store : List F) (inputId : ℕ) (poses : List Pose)
    (hin : inputId < store.length) :
    (∀ s' oid, drawPosesOnFrame ops cfg store inputId poses = .ok (s', oid) →
        oid = store.length ∧ oid ≠ inputId ∧
        getBuf s' inputId = getBuf store inputId) ∧
    (∀ pose rest,
        (∀ j ∈ pose.joints, j.keypoint.confidence < cfg.confidence_threshold) →
        drawPosesOnFrame ops cfg store inputId (pose :: rest) =
          drawPosesOnFrame ops cfg store inputId rest) ∧
    (∀ pose,
        (∀ j ∈ pose.joints, j.keypoint.confidence < cfg.confidence_threshold) →
        drawPosesOnFrame ops cfg store inputId [pose] =
          .ok (store ++ [getBuf store inputId], store.length)) := by
  have hskip : ∀ (pose : Pose),
      (∀ j ∈ pose.joints, j.keypoint.confidence < cfg.confidence_threshold) →
      ∀ st : List F, drawPoseStep ops cfg st store.length pose = .ok st := by
    intro pose hp st
    have hv : pose.joints.filter
        (fun j => cfg.confidence_threshold ≤ j.keypoint.confidence) = [] := by
      apply List.filter_eq_nil_iff.mpr
      intro j hj
      simpa using not_le.mpr (hp j hj)
    unfold drawPoseStep
    rw [if_pos hv]
  refine ⟨?_, ?_, ?_⟩
  · intro s' oid h
    rw [drawPosesOnFrame_def] at h
    cases hfold : List.foldlM
        (fun st p => drawPoseStep ops cfg st store.length p)
        (store ++ [getBuf store inputId]) poses with
    | error e => rw [hfold] at h; cases h
    | ok sF =>
        rw [hfold] at h
        injection h with h'
        have h1 : sF = s' := congrArg Prod.fst h'
        have h2 : store.length = oid := congrArg Prod.snd h'
        subst h1
        subst h2
        have hne : inputId ≠ store.length := Nat.ne_of_lt hin
        have hpres := (foldDraw_writes_only ops cfg store.length poses
          (store ++ [getBuf store inputId]) sF hfold).2 inputId hne
        have happ : (store ++ [getBuf store inputId])[inputId]? = store[inputId]? :=
          List.getElem?_append_left hin
        refine ⟨rfl, Ne.symm hne, ?_⟩
        rw [getBuf, getBuf, List.getD_eq_getElem?_getD, List.getD_eq_getElem?_getD,
          hpres, happ]
  · intro pose rest hp
    rw [drawPosesOnFrame_def, drawPosesOnFrame_def, List.foldlM_cons, hskip pose hp]
    rfl
  · intro pose hp
    rw [drawPosesOnFrame_def, List.foldlM_cons, hskip pose hp]
    rfl

/-- Drawing primitives for witnesses: buffers are counters, every primitive
increments. -/
def opsW : DrawOps ℕ :=
  { line := fun f _ _ _ _ => f + 1
    circle := fun f _ _ _ => f + 1
    putText := fun f _ _ _ _ => f + 1 }

/-- Witness configuration: the defaults with an integral confidence
threshold. -/
def cfgW : VisConfig := { confidence_threshold := 1 }

/-- A pose whose only joint falls below the witness confidence threshold. -/
def poseLowConf : Pose :=
  { joints := [{ name := "nose",
                 keypoint := { x := 3, y := 4, confidence := 0 },
                 joint_id := 0 }],
    person_id := 2 }

/-- C7 witness: the fresh-canvas theorem evaluated on a one-buffer store with
a single below-threshold pose. -/
theorem renderer_fresh_canvas_witness :
    drawPosesOnFrame opsW cfgW [(9 : ℕ)] 0 [poseLowConf] = .ok ([9, 9], 1) :=
  (renderer_fresh_canvas ℕ opsW cfgW [(9 : ℕ)] 0 [poseLowConf] (by decide)).2.2
    poseLowConf (by decide)

/-- C9: with confidence labeling enabled (the default), rendering a pose whose
aggregate `confidence` is unset (`None`) but which has at least one joint at
or above the threshold raises `TypeError` from `f"{pose.confidence:.2f}"`
instead of producing a rendered frame. -/
theorem renderer_none_confidence_raises (F : Type) [Inhabited F]
    (ops : DrawOps F) (cfg : VisConfig) (store : List F) (inputId : ℕ)
    (pose : Pose) (rest : List Pose)
    (hconf : pose.confidence = none)
    (hshow : cfg.show_confidence = true)
    (hj : ∃ j ∈ pose.joints, cfg.confidence_threshold ≤ j.keypoint.confidence) :
    drawPosesOnFrame ops cfg store inputId (pose :: rest) = .error .typeError := by
  obtain ⟨j, hjm, hjc⟩ := hj
  have hmem : j ∈ pose.joints.filter
      (fun j => cfg.confidence_threshold ≤ j.keypoint.confidence) :=
    List.mem_filter.mpr ⟨hjm, by simpa using hjc⟩
  have hv : pose.joints.filter
      (fun j => cfg.confidence_threshold ≤ j.keypoint.confidence) ≠ [] :=
    List.ne_nil_of_mem hmem
  obtain ⟨v0, vrest, hvl⟩ := List.exists_cons_of_ne_nil hv
  have hinfo : ∀ f : F, drawPersonInfoVal ops cfg f pose
      (pose.joints.filter
        (fun j => cfg.confidence_threshold ≤ j.keypoint.confidence)) =
      .error .typeError := by
    intro f
    rw [hvl]
    simp only [drawPersonInfoVal, hshow, if_true, hconf, pyFormatConf, Except.map]
  have hstep : ∀ st : List F,
      drawPoseStep ops cfg st store.length pose = .error .typeError := by
    intro st
    unfold drawPoseStep
    rw [if_neg hv, if_pos (by rw [hshow, Bool.or_true]), hinfo]
  rw [drawPosesOnFrame_def, List.foldlM_cons, hstep]
  rfl

/-- C9 witness: the raising theorem evaluated with the counter primitives, the
default configuration, and a pose with one qualifying joint and unset
aggregate confidence. -/
theorem renderer_none_confidence_raises_witness :
    drawPosesOnFrame opsW cfgW [(9 : ℕ)] 0
      [{ joints := [{ name := "nose",
                      keypoint := { x := 3, y := 4, confidence := 1 },
                      joint_id := 0 }],
         person_id := 2 }] = .error .typeError :=
  renderer_none_confidence_raises ℕ opsW cfgW [(9 : ℕ)] 0 _ [] rfl rfl
    ⟨{ name := "nose", keypoint := { x := 3, y := 4, confidence := 1 },
       joint_id := 0 }, by decide, by decide⟩

/-! ## Claim C8: Pose dict round-trip -/

/-- C8: encoding a `Pose` to its dict form and decoding it back yields an
equal `Pose` — same joints (names, joint ids, keypoint x/y/confidence), same
`person_id`, `confidence`, `frame_number` and `timestamp`. -/
theorem pose_dict_roundtrip (p : Pose) : Pose.from_dict (Pose.to_dict p) = p := by
  cases p with
  | mk joints person_id frame_number timestamp confidence =>
      simp only [Pose.to_dict, Pose.from_dict, Option.getD_some, List.map_map]
      have hj : (Joint.from_dict ∘ Joint.to_dict) = id := funext fun j => rfl
      rw [hj, List.map_id]

end PoseDetect
